import Mathlib

/-!
Shallow embedding of the `address_to_map_view` repository (a React/Mapbox
location viewer) and proofs about its core logic:

* the keyed marker reconciler `updateMarkers` of the map widget
  (`src/unnamed/part_000`, lines 81-123), together with its camera-follow
  rule;
* the map-initialization effect of the widget (lines 34-78 of both map
  components), including its React cleanup semantics;
* the page controller's `handleMapClick` reverse-geocode handler and
  `removeLocation` (`src/pages/Index.tsx`);
* the debounced address-suggestion effect (`src/components/Map.tsx`,
  lines 322-359).

Coordinates are JS numbers that the code only passes through (it never
computes with them), so they are embedded as pairs of rationals.
Marker handles and engine instances are opaque objects in the source;
they are embedded as records carrying a fresh identity drawn from a
counter, so that creation, reuse and destruction are observable.
-/

namespace AddressToMapView

/-- Geographic coordinate `[lng, lat]`; the code only stores and forwards
these values, so rationals are an adequate embedding of the JS numbers. -/
abbrev Coord := ℚ × ℚ

/-- The `type` field of a `Location` in `src/unnamed/part_000`
(`'current' | 'selected' | 'searched'`). -/
inductive LocType where
  | current
  | selected
  | searched
deriving DecidableEq, Repr

/-- The `Location` interface of `src/unnamed/part_000` (lines 7-12):
coordinates, address, type, and the creation timestamp used as the
reconciliation key. -/
structure Location where
  coordinates : Coord
  address : String
  type : LocType
  timestamp : Nat
deriving DecidableEq, Repr

/-- A rendered `mapboxgl.Marker` handle. The `id` field models the JS
object identity of the handle (fresh at each `new mapboxgl.Marker`);
`color` and `pos` model the constructor color option and the current
`setLngLat` position. -/
structure Marker where
  id : Nat
  color : String
  pos : Coord
deriving DecidableEq, Repr

/-- The widget's `markerMap` state: the JS object keyed by timestamp
(`{ [key: number]: mapboxgl.Marker }`), embedded as an association list
with unique keys. -/
abbrev MarkerMap := List (Nat × Marker)

/-- JS object property read `markerMap[timestamp]`. -/
def lookupMarker : MarkerMap → Nat → Option Marker
  | [], _ => none
  | (k0, m) :: rest, k => if k0 = k then some m else lookupMarker rest k

/-- JS object property write `newMarkerMap[timestamp] = marker`:
replaces the entry if the key is present, otherwise appends it. -/
def insertMarker : MarkerMap → Nat → Marker → MarkerMap
  | [], k, v => [(k, v)]
  | (k0, m) :: rest, k, v =>
    if k0 = k then (k, v) :: rest else (k0, m) :: insertMarker rest k v

/-- Key list of the mapping (`Object.keys(markerMap)`). -/
def keys (m : MarkerMap) : List Nat := m.map (fun p => p.1)

/-- Marker color chosen in `updateMarkers` (lines 90-97 of
`src/unnamed/part_000`): blue for `current`, purple for `searched`,
red otherwise. -/
def markerColor : LocType → String
  | .current => "blue"
  | .searched => "purple"
  | .selected => "red"

/-- State threaded through the `locations.forEach` loop of
`updateMarkers`: the `newMarkerMap` object under construction, the next
fresh handle identity, and the handles created so far this run. -/
structure LoopState where
  acc : MarkerMap
  nextId : Nat
  created : List Nat
deriving DecidableEq, Repr

/-- One iteration of the `locations.forEach` body (lines 86-105):
look the timestamp up in the previous `markerMap`; if absent, create a
fresh marker at the record's coordinates with the type's color; if
present, reuse the handle and reposition it; either way store the handle
in `newMarkerMap` under the record's timestamp. -/
def processLoc (oldMap : MarkerMap) (loc : Location) (s : LoopState) : LoopState :=
  match lookupMarker oldMap loc.timestamp with
  | none =>
    { acc := insertMarker s.acc loc.timestamp
        { id := s.nextId, color := markerColor loc.type, pos := loc.coordinates }
      nextId := s.nextId + 1
      created := s.created ++ [s.nextId] }
  | some m =>
    { acc := insertMarker s.acc loc.timestamp
        { id := m.id, color := m.color, pos := loc.coordinates }
      nextId := s.nextId
      created := s.created }

/-- The whole `locations.forEach` loop. -/
def processAll (oldMap : MarkerMap) : List Location → LoopState → LoopState
  | [], s => s
  | loc :: rest, s => processAll oldMap rest (processLoc oldMap loc s)

/-- Test `locations.some((loc) => loc.timestamp === Number(timestamp))`
used by the removal pass. -/
def hasTimestamp (locs : List Location) (k : Nat) : Bool :=
  locs.any (fun loc => loc.timestamp == k)

/-- The removal pass (lines 107-111): every handle of the previous
mapping whose key no longer occurs in `locations` is removed from the
map surface; this returns the identities of the removed handles. -/
def removedIds (oldMap : MarkerMap) (locs : List Location) : List Nat :=
  (oldMap.filter (fun p => !hasTimestamp locs p.1)).map (fun p => p.2.id)

/-- Predicate `loc.type === 'current'` of the camera-follow rule. -/
def isCurrent (loc : Location) : Bool :=
  match loc.type with
  | .current => true
  | _ => false

/-- The camera-follow rule (lines 115-122): `locations.find` the first
`current` record and command `flyTo` its coordinates at zoom 14;
otherwise no camera command. -/
def cameraCommand (locs : List Location) : Option (Coord × Nat) :=
  (locs.find? isCurrent).map (fun loc => (loc.coordinates, 14))

/-- The widget state owned by `updateMarkers`: the committed `markerMap`
React state and the fresh-handle counter. -/
structure MarkerState where
  markerMap : MarkerMap
  nextId : Nat
deriving DecidableEq, Repr

/-- Everything one `updateMarkers` run does: the committed new state, the
identities of the handles created and removed during the run, and the
camera command issued, if any. -/
structure UpdateResult where
  state : MarkerState
  created : List Nat
  removed : List Nat
  flyTo : Option (Coord × Nat)
deriving DecidableEq, Repr

/-- The `updateMarkers` callback of `src/unnamed/part_000` (lines
81-123).  `mapReady` models the early-out guard
`if (!mapRef.current || !isMapInitialized) return;`.  When ready, the
run builds `newMarkerMap` from scratch by the forEach loop (reusing
handles found in the previous mapping), removes handles of vanished
keys, commits `setMarkerMap(newMarkerMap)`, and applies the
camera-follow rule. -/
def updateMarkers (mapReady : Bool) (st : MarkerState) (locs : List Location) :
    UpdateResult :=
  if mapReady then
    let s := processAll st.markerMap locs { acc := [], nextId := st.nextId, created := [] }
    { state := { markerMap := s.acc, nextId := s.nextId }
      created := s.created
      removed := removedIds st.markerMap locs
      flyTo := cameraCommand locs }
  else
    { state := st, created := [], removed := [], flyTo := none }

/-- The `removeLocation` handler of `src/pages/Index.tsx` (lines
185-187): drop every record whose timestamp equals the given one. -/
def removeLocation (locs : List Location) (ts : Nat) : List Location :=
  locs.filter (fun loc => loc.timestamp != ts)

/-- Proof device: the association list that one forEach pass over `locs`
produces when looking handles up in `oldMap`, with fresh identities drawn
from `ctr`.  Proved below to coincide with `processAll`'s accumulator. -/
def buildSpec (oldMap : MarkerMap) (ctr : Nat) : List Location → MarkerMap
  | [] => []
  | loc :: rest =>
    match lookupMarker oldMap loc.timestamp with
    | none =>
      (loc.timestamp, ⟨ctr, markerColor loc.type, loc.coordinates⟩)
        :: buildSpec oldMap (ctr + 1) rest
    | some m =>
      (loc.timestamp, ⟨m.id, m.color, loc.coordinates⟩)
        :: buildSpec oldMap ctr rest

/-- Outcome of the reverse-geocode request made by `handleMapClick`
(`src/pages/Index.tsx`, lines 23-58).  `ok` carries the `place_name` of
each returned feature (the only field the handler reads);
`httpError` models `!response.ok`, which makes the handler throw. -/
inductive GeoResult where
  | ok (placeNames : List String)
  | httpError
deriving DecidableEq, Repr

/-- Observable outcome of one `handleMapClick` call: the committed
location sequence, whether the destructive `Warning` toast fired, and
whether the success toast fired. -/
structure ClickResult where
  locations : List Location
  warned : Bool
  toastedSuccess : Bool
deriving DecidableEq, Repr

/-- The address fallback `data.features?.[0]?.place_name || 'Address not
available'` (line 34 of `src/pages/Index.tsx`): the first feature's
place name when present and truthy (JS `||` also rejects the empty
string), otherwise the placeholder. -/
def geoAddress (placeNames : List String) : String :=
  match placeNames.head? with
  | some p => if p = "" then "Address not available" else p
  | none => "Address not available"

/-- The `handleMapClick` handler of `src/pages/Index.tsx` (lines 23-58).
On a successful response it appends one `selected` record at the clicked
coordinates with the resolved (or placeholder) address and toasts
success; on an HTTP failure the `throw` happens before `setLocations`,
so the catch block only fires the destructive warning toast and the
location sequence is left unchanged. -/
def handleMapClick (prev : List Location) (clicked : Coord) (now : Nat)
    (resp : GeoResult) : ClickResult :=
  match resp with
  | .ok ps =>
    { locations := prev ++ [⟨clicked, geoAddress ps, .selected, now⟩]
      warned := false
      toastedSuccess := true }
  | .httpError =>
    { locations := prev, warned := true, toastedSuccess := false }

/-- Inputs of the suggestion effect other than the search text
(`mapboxToken` and `isTokenSet` of the Index page). -/
structure SuggestCtx where
  mapboxToken : String
  isTokenSet : Bool
deriving DecidableEq, Repr

/-- JS falsiness of `searchQuery.trim()`: the trimmed string is empty
exactly when every character is whitespace. -/
def isBlank (q : String) : Bool :=
  q.data.all Char.isWhitespace

/-- The guard of the suggestion effect (`src/components/Map.tsx`, line
323): a fetch is scheduled only when
`!(!mapboxToken || !isTokenSet || !searchQuery.trim())`. -/
def shouldFetch (ctx : SuggestCtx) (q : String) : Bool :=
  !(ctx.mapboxToken == "") && ctx.isTokenSet && !(isBlank q)

/-- An issued suggestion fetch: its identity and the query string its
closure captured when the debounce timer was armed. -/
structure Fetch where
  id : Nat
  query : String
deriving DecidableEq, Repr

/-- State of the suggestion machinery on the Index page: the search
text, the pending debounce timer (with the query its callback closed
over), the issued-but-unresolved fetches, the displayed suggestion list
(place names), the fresh fetch identity, and the log of all issued
fetches. -/
structure SuggestState where
  searchQuery : String
  timer : Option String
  inflight : List Fetch
  suggestions : List String
  nextFetch : Nat
  fetchLog : List Fetch
deriving DecidableEq, Repr

/-- Discrete events driving the suggestion effect of
`src/components/Map.tsx` (lines 322-359): a keystroke committing new
search text (which reruns the effect: cleanup `clearTimeout`, then the
body), the debounce timer elapsing (issuing the fetch), and a fetch's
successful HTTP response arriving. -/
inductive SuggestEvent where
  | change (q : String)
  | timerFire
  | resolve (fid : Nat) (features : List String)
deriving DecidableEq, Repr

/-- One event step of the suggestion effect.  On `change`, the previous
effect's cleanup clears the pending timer, then the body either clears
the suggestion list (guard failed) or arms a 300 ms timer capturing the
new query.  On `timerFire`, `fetchSuggestions` issues the fetch for the
captured query.  On `resolve`, the handler runs
`setSuggestions(data.features || [])` unconditionally — the source has
no staleness gating. -/
def suggestStep (ctx : SuggestCtx) (st : SuggestState) : SuggestEvent → SuggestState
  | .change q =>
    if shouldFetch ctx q then
      { st with searchQuery := q, timer := some q }
    else
      { st with searchQuery := q, timer := none, suggestions := [] }
  | .timerFire =>
    match st.timer with
    | none => st
    | some q =>
      { st with timer := none
                inflight := st.inflight ++ [{ id := st.nextFetch, query := q }]
                fetchLog := st.fetchLog ++ [{ id := st.nextFetch, query := q }]
                nextFetch := st.nextFetch + 1 }
  | .resolve fid features =>
    match st.inflight.find? (fun f => f.id == fid) with
    | none => st
    | some _ =>
      { st with inflight := st.inflight.filter (fun f => f.id != fid)
                suggestions := features }

/-- Whether the debounce timer armed at time `t` fires before the next
keystroke clears it: `setTimeout(fetchSuggestions, 300)` fires at
`t + 300` unless the effect is rerun strictly earlier. -/
def firesBefore (t : Nat) : List (Nat × String) → Bool
  | [] => true
  | (t2, _) :: _ => t + 300 ≤ t2

/-- The suggestion fetches actually issued for a timed sequence of
search-text changes (times strictly increasing): each change arms a
timer only when the guard passes, and that timer's fetch is issued only
if no later change occurs within the 300 ms quiet window. -/
def debouncedFetches (ctx : SuggestCtx) : List (Nat × String) → List String
  | [] => []
  | (t, q) :: rest =>
    (if shouldFetch ctx q && firesBefore t rest then [q] else [])
      ++ debouncedFetches ctx rest

/-- A `mapboxgl.Map` engine instance created by the initialization
effect; `id` models its JS object identity, `center` and `zoom` the
constructor options. -/
structure EngineInst where
  id : Nat
  center : Coord
  zoom : Nat
deriving DecidableEq, Repr

/-- The dependency array `[apiKey, initialCoords]` of the widget's
initialization effect. -/
structure MapDeps where
  apiKey : String
  initialCoords : Option Coord
deriving DecidableEq, Repr

/-- State touched by the initialization effect: the `mapRef` ref, whether
the most recent effect body registered the removal cleanup, the fresh
instance identity, the identities of destroyed instances, and the number
of missing-key diagnostics written to the console. -/
structure InitState where
  mapRef : Option EngineInst
  hasCleanup : Bool
  nextInst : Nat
  destroyed : List Nat
  keyMissingDiags : Nat
deriving DecidableEq, Repr

/-- The widget's fallback center `{ lng: 55.2708, lat: 25.2048 }`. -/
def defaultCenter : Coord := (552708 / 10000, 252048 / 10000)

/-- The widget's fallback zoom level. -/
def defaultZoom : Nat := 10

/-- The body of the initialization effect (`src/unnamed/part_000`, lines
34-69): bail out with a console diagnostic when the key is missing; bail
out when an instance already exists or no container is mounted; otherwise
create the engine at `initialCoords` (zoom 14) or the default center
(zoom 10).  Only the non-bailing path registers the removal cleanup. -/
def initEffectBody (deps : MapDeps) (containerAvail : Bool) (st : InitState) :
    InitState :=
  if deps.apiKey = "" then
    { st with keyMissingDiags := st.keyMissingDiags + 1, hasCleanup := false }
  else if st.mapRef.isSome || !containerAvail then
    { st with hasCleanup := false }
  else
    { st with
        mapRef := some
          { id := st.nextInst
            center := deps.initialCoords.getD defaultCenter
            zoom := if deps.initialCoords.isSome then 14 else defaultZoom }
        nextInst := st.nextInst + 1
        hasCleanup := true }

/-- The cleanup returned by the effect body (lines 71-77): when one was
registered, `mapRef.current.remove()` destroys the instance and nulls
the ref. -/
def initEffectCleanup (st : InitState) : InitState :=
  if st.hasCleanup then
    match st.mapRef with
    | some inst =>
      { st with mapRef := none, destroyed := st.destroyed ++ [inst.id],
                hasCleanup := false }
    | none => { st with hasCleanup := false }
  else st

/-- React's behavior when a dependency of the effect changes: run the
previously registered cleanup, then the effect body with the new
dependency values. -/
def initEffectRerun (deps : MapDeps) (containerAvail : Bool) (st : InitState) :
    InitState :=
  initEffectBody deps containerAvail (initEffectCleanup st)

/-- The lifecycle of the initialization effect over a sequence of
dependency values: the effect reruns (cleanup, then body) exactly when
the dependency array `[apiKey, initialCoords]` differs from the previous
one. -/
def initLifecycle (containerAvail : Bool) :
    List MapDeps → Option MapDeps → InitState → InitState
  | [], _, st => st
  | d :: rest, prev, st =>
    if prev = some d then initLifecycle containerAvail rest prev st
    else initLifecycle containerAvail rest (some d)
      (initEffectRerun d containerAvail st)

/-- Concrete sample record of kind `current`. -/
def locCur : Location := ⟨(3, 4), "current addr", .current, 10⟩

/-- Concrete sample record of kind `selected`. -/
def locSel : Location := ⟨(5, 6), "selected addr", .selected, 11⟩

/-- Concrete sample record of kind `searched`. -/
def locSea : Location := ⟨(7, 8), "searched addr", .searched, 12⟩

/-- Empty initial widget state. -/
def emptyMarkerState : MarkerState := ⟨[], 0⟩

/-- Concrete suggestion context with a token set. -/
def ctx0 : SuggestCtx := ⟨"token", true⟩

/-- Initial suggestion-machinery state. -/
def suggestInit : SuggestState := ⟨"", none, [], [], 0, []⟩

/-- A trace in which the fetch for "a" is issued, a later keystroke
changes the text to "ab" whose fetch is also issued, and the response
for the stale "a" fetch resolves last. -/
def staleTrace : List SuggestEvent :=
  [.change "a", .timerFire, .change "ab", .timerFire,
   .resolve 1 ["ResultForAb"], .resolve 0 ["ResultForA"]]

/-- Final suggestion state after `staleTrace`. -/
def staleRun : SuggestState := staleTrace.foldl (suggestStep ctx0) suggestInit

/-- Initial state of the initialization effect. -/
def initState0 : InitState := ⟨none, false, 0, [], 0⟩

/-- Dependency values at mount: a key and no initial center yet. -/
def mapDeps1 : MapDeps := ⟨"key", none⟩

/-- Dependency values after the device position arrives: same key, new
initial center. -/
def mapDeps2 : MapDeps := ⟨"key", some (1, 2)⟩

/-- Lifecycle run: mount with `mapDeps1`, then `initialCoords` changes
to `mapDeps2` while the first engine instance exists. -/
def initRun : InitState := initLifecycle true [mapDeps1, mapDeps2] none initState0

/-- A suggestion state with one issued, unresolved fetch for the old
query "a" while the search text has already moved on to "ab". -/
def stInflight : SuggestState := ⟨"ab", none, [⟨0, "a"⟩], [], 1, [⟨0, "a"⟩]⟩

/-- An initialization state right after the first engine instance was
created (cleanup registered, next identity 1). -/
def initStWithInst : InitState := ⟨some ⟨0, (1, 1), 14⟩, true, 1, [], 0⟩

/-! ### Helper lemmas about the marker mapping -/

theorem mem_keys_insertMarker (m : MarkerMap) (k : Nat) (v : Marker) (x : Nat) :
    x ∈ keys (insertMarker m k v) ↔ x = k ∨ x ∈ keys m := by
  induction m with
  | nil => simp [insertMarker, keys]
  | cons p rest ih =>
    obtain ⟨k0, m0⟩ := p
    by_cases h : k0 = k
    · subst h
      simp [insertMarker, keys]
    · simp only [insertMarker, if_neg h, keys, List.map_cons, List.mem_cons] at ih ⊢
      tauto

theorem lookupMarker_isSome_iff (m : MarkerMap) (k : Nat) :
    (lookupMarker m k).isSome = true ↔ k ∈ keys m := by
  induction m with
  | nil => simp [lookupMarker, keys]
  | cons p rest ih =>
    obtain ⟨k0, m0⟩ := p
    by_cases h : k0 = k
    · simp [lookupMarker, h, keys]
    · simp only [lookupMarker, if_neg h, keys, List.map_cons, List.mem_cons, ih]
      constructor
      · intro hk
        exact Or.inr hk
      · rintro (hk | hk)
        · exact absurd hk.symm h
        · exact hk

theorem lookupMarker_mem (m : MarkerMap) (k : Nat) (v : Marker)
    (h : lookupMarker m k = some v) : (k, v) ∈ m := by
  induction m with
  | nil => simp [lookupMarker] at h
  | cons p rest ih =>
    obtain ⟨k0, m0⟩ := p
    by_cases hk : k0 = k
    · subst hk
      simp [lookupMarker] at h
      subst h
      exact List.mem_cons_self _ _
    · simp only [lookupMarker, if_neg hk] at h
      exact List.mem_cons_of_mem _ (ih h)

theorem insertMarker_of_not_mem (m : MarkerMap) (k : Nat) (v : Marker)
    (h : k ∉ keys m) : insertMarker m k v = m ++ [(k, v)] := by
  induction m with
  | nil => simp [insertMarker]
  | cons p rest ih =>
    obtain ⟨k0, m0⟩ := p
    have hk : ¬ k0 = k := by
      intro he
      exact h (by simp [keys, he])
    have h1 : k ∉ keys rest := by
      intro hm
      exact h (by simp [keys] at hm ⊢; right; exact hm)
    simp [insertMarker, hk, ih h1]

theorem keys_processAll (M : MarkerMap) (locs : List Location) :
    ∀ (s : LoopState) (k : Nat),
      k ∈ keys (processAll M locs s).acc ↔
        k ∈ keys s.acc ∨ k ∈ locs.map (fun l => l.timestamp) := by
  induction locs with
  | nil =>
    intro s k
    simp [processAll]
  | cons loc rest ih =>
    intro s k
    simp only [processAll]
    rw [ih]
    cases h : lookupMarker M loc.timestamp with
    | none =>
      simp only [processLoc, h, mem_keys_insertMarker, List.map_cons, List.mem_cons]
      tauto
    | some m =>
      simp only [processLoc, h, mem_keys_insertMarker, List.map_cons, List.mem_cons]
      tauto

theorem processAll_all_found (M : MarkerMap) :
    ∀ (locs : List Location),
      (∀ loc ∈ locs, (lookupMarker M loc.timestamp).isSome = true) →
      ∀ s : LoopState, (processAll M locs s).created = s.created ∧
        (processAll M locs s).nextId = s.nextId := by
  intro locs
  induction locs with
  | nil =>
    intro _ s
    exact ⟨rfl, rfl⟩
  | cons loc rest ih =>
    intro h s
    obtain ⟨m, hm⟩ := Option.isSome_iff_exists.mp (h loc (List.mem_cons_self loc rest))
    have hrest := ih (fun l hl => h l (List.mem_cons_of_mem _ hl))
    simp only [processAll, processLoc, hm]
    exact hrest _

theorem hasTimestamp_eq_true_iff (locs : List Location) (k : Nat) :
    hasTimestamp locs k = true ↔ k ∈ locs.map (fun l => l.timestamp) := by
  simp [hasTimestamp, List.any_eq_true, beq_iff_eq]

theorem removedIds_eq_nil (M : MarkerMap) (locs : List Location)
    (h : ∀ p ∈ M, hasTimestamp locs p.1 = true) : removedIds M locs = [] := by
  unfold removedIds
  have hf : M.filter (fun p => !hasTimestamp locs p.1) = [] := by
    rw [List.filter_eq_nil_iff]
    intro p hp
    simp [h p hp]
  simp [hf]

theorem processAll_acc_eq (M : MarkerMap) :
    ∀ (locs : List Location), (locs.map (fun l => l.timestamp)).Nodup →
      ∀ s : LoopState, (∀ loc ∈ locs, loc.timestamp ∉ keys s.acc) →
        (processAll M locs s).acc = s.acc ++ buildSpec M s.nextId locs := by
  intro locs
  induction locs with
  | nil =>
    intro _ s _
    simp [processAll, buildSpec]
  | cons loc rest ih =>
    intro hnd s hdisj
    rw [List.map_cons, List.nodup_cons] at hnd
    obtain ⟨hhead, hnd2⟩ := hnd
    have hnotmem : loc.timestamp ∉ keys s.acc := hdisj loc (List.mem_cons_self _ _)
    cases h : lookupMarker M loc.timestamp with
    | none =>
      have hdisj2 : ∀ l ∈ rest,
          l.timestamp ∉ keys (insertMarker s.acc loc.timestamp
            ⟨s.nextId, markerColor loc.type, loc.coordinates⟩) := by
        intro l hl hmem
        rcases (mem_keys_insertMarker _ _ _ _).mp hmem with he | hm
        · exact hhead (he ▸ List.mem_map_of_mem _ hl)
        · exact hdisj l (List.mem_cons_of_mem _ hl) hm
      simp only [processAll, processLoc, h]
      rw [ih hnd2 _ hdisj2, insertMarker_of_not_mem _ _ _ hnotmem]
      simp [buildSpec, h, List.append_assoc]
    | some m =>
      have hdisj2 : ∀ l ∈ rest,
          l.timestamp ∉ keys (insertMarker s.acc loc.timestamp
            ⟨m.id, m.color, loc.coordinates⟩) := by
        intro l hl hmem
        rcases (mem_keys_insertMarker _ _ _ _).mp hmem with he | hm
        · exact hhead (he ▸ List.mem_map_of_mem _ hl)
        · exact hdisj l (List.mem_cons_of_mem _ hl) hm
      simp only [processAll, processLoc, h]
      rw [ih hnd2 _ hdisj2, insertMarker_of_not_mem _ _ _ hnotmem]
      simp [buildSpec, h, List.append_assoc]

theorem buildSpec_congr :
    ∀ (locs : List Location) (N1 N2 : MarkerMap) (c : Nat),
      (∀ loc ∈ locs, lookupMarker N1 loc.timestamp = lookupMarker N2 loc.timestamp) →
      buildSpec N1 c locs = buildSpec N2 c locs := by
  intro locs
  induction locs with
  | nil =>
    intro N1 N2 c _
    rfl
  | cons loc rest ih =>
    intro N1 N2 c h
    have h0 := h loc (List.mem_cons_self _ _)
    cases h2 : lookupMarker N2 loc.timestamp with
    | none =>
      simp only [buildSpec, h0, h2]
      rw [ih N1 N2 (c + 1) (fun l hl => h l (List.mem_cons_of_mem _ hl))]
    | some m =>
      simp only [buildSpec, h0, h2]
      rw [ih N1 N2 c (fun l hl => h l (List.mem_cons_of_mem _ hl))]

theorem keys_buildSpec (M : MarkerMap) :
    ∀ (locs : List Location) (c : Nat),
      keys (buildSpec M c locs) = locs.map (fun l => l.timestamp) := by
  intro locs
  induction locs with
  | nil =>
    intro c
    rfl
  | cons loc rest ih =>
    intro c
    cases h : lookupMarker M loc.timestamp with
    | none =>
      simp only [buildSpec, h, keys, List.map_cons]
      rw [← keys, ih]
    | some m =>
      simp only [buildSpec, h, keys, List.map_cons]
      rw [← keys, ih]

theorem buildSpec_fixpoint_cons (loc : Location) (rest : List Location)
    (v0 : Marker) (N2 : MarkerMap) (c : Nat)
    (hpos : v0.pos = loc.coordinates)
    (hN2 : buildSpec ((loc.timestamp, v0) :: N2) c rest = N2) :
    buildSpec ((loc.timestamp, v0) :: N2) c (loc :: rest)
      = (loc.timestamp, v0) :: N2 := by
  obtain ⟨i, col, pos⟩ := v0
  simp only [Marker.mk.injEq] at hpos
  subst hpos
  have hl : lookupMarker ((loc.timestamp, (⟨i, col, loc.coordinates⟩ : Marker)) :: N2)
      loc.timestamp = some ⟨i, col, loc.coordinates⟩ := by
    simp [lookupMarker]
  simp only [buildSpec, hl]
  rw [hN2]

theorem buildSpec_idem (M : MarkerMap) :
    ∀ (locs : List Location), (locs.map (fun l => l.timestamp)).Nodup →
      ∀ (c c2 : Nat), buildSpec (buildSpec M c locs) c2 locs = buildSpec M c locs := by
  intro locs
  induction locs with
  | nil =>
    intro _ c c2
    rfl
  | cons loc rest ih =>
    intro hnd c c2
    rw [List.map_cons, List.nodup_cons] at hnd
    obtain ⟨hhead, hnd2⟩ := hnd
    have hcong : ∀ (v0 : Marker) (N2 : MarkerMap), ∀ l ∈ rest,
        lookupMarker ((loc.timestamp, v0) :: N2) l.timestamp
          = lookupMarker N2 l.timestamp := by
      intro v0 N2 l hl
      have hne : ¬ loc.timestamp = l.timestamp := by
        intro he
        exact hhead (he ▸ List.mem_map_of_mem _ hl)
      simp [lookupMarker, hne]
    cases h : lookupMarker M loc.timestamp with
    | none =>
      simp only [buildSpec, h]
      exact buildSpec_fixpoint_cons loc rest _ _ c2 rfl (by
        rw [buildSpec_congr rest _ _ c2 (hcong _ _), ih hnd2 (c + 1) c2])
    | some m =>
      simp only [buildSpec, h]
      exact buildSpec_fixpoint_cons loc rest _ _ c2 rfl (by
        rw [buildSpec_congr rest _ _ c2 (hcong _ _), ih hnd2 c c2])

theorem keys_updateMarkers (st : MarkerState) (locs : List Location) (k : Nat) :
    k ∈ keys (updateMarkers true st locs).state.markerMap ↔
      k ∈ locs.map (fun l => l.timestamp) := by
  simp only [updateMarkers, if_true]
  rw [keys_processAll]
  simp [keys]

theorem updateMarkers_markerMap_eq (st : MarkerState) (locs : List Location)
    (hnd : (locs.map (fun l => l.timestamp)).Nodup) :
    (updateMarkers true st locs).state.markerMap
      = buildSpec st.markerMap st.nextId locs := by
  simp only [updateMarkers, if_true]
  have h := processAll_acc_eq st.markerMap locs hnd ⟨[], st.nextId, []⟩
    (by intro l _ hm; simp [keys] at hm)
  simpa using h

theorem updateMarkers_second_run (M1 : MarkerMap) (n1 : Nat) (locs : List Location)
    (hnd : (locs.map (fun l => l.timestamp)).Nodup)
    (hkeys : keys M1 = locs.map (fun l => l.timestamp))
    (hfix : buildSpec M1 n1 locs = M1) :
    updateMarkers true ⟨M1, n1⟩ locs
      = ⟨⟨M1, n1⟩, [], [], cameraCommand locs⟩ := by
  have hfound : ∀ loc ∈ locs, (lookupMarker M1 loc.timestamp).isSome = true := by
    intro l hl
    rw [lookupMarker_isSome_iff, hkeys]
    exact List.mem_map_of_mem _ hl
  have hacc := processAll_acc_eq M1 locs hnd ⟨[], n1, []⟩
    (by intro l _ hm; simp [keys] at hm)
  have hcr := processAll_all_found M1 locs hfound ⟨[], n1, []⟩
  have hrem : removedIds M1 locs = [] := by
    apply removedIds_eq_nil
    intro p hp
    rw [hasTimestamp_eq_true_iff, ← hkeys]
    exact List.mem_map_of_mem _ hp
  simp only [updateMarkers, if_true, UpdateResult.mk.injEq, MarkerState.mk.injEq]
  refine ⟨⟨?_, ?_⟩, ?_, ?_, trivial⟩
  · rw [hacc]
    simpa using hfix
  · exact hcr.2
  · exact hcr.1
  · exact hrem

/-! ### Claim theorems for the marker reconciler -/

/-- C1: for every location sequence, after one `updateMarkers` run the
set of identifiers (timestamps) carrying a live handle in the widget's
mapping is exactly the set of identifiers present in the input
sequence. -/
theorem updateMarkers_coverage (st : MarkerState) (locs : List Location) (k : Nat) :
    (lookupMarker (updateMarkers true st locs).state.markerMap k).isSome = true ↔
      k ∈ locs.map (fun l => l.timestamp) := by
  rw [lookupMarker_isSome_iff]
  exact keys_updateMarkers st locs k

/-- C2: the reconciler is idempotent. Running `updateMarkers` a second
time on the same sequence (whose identifiers are unique, as the data
model requires) with the mapping produced by the first run creates no
handle, destroys no handle, and commits an unchanged state; in
particular every identifier reuses its existing handle. -/
theorem updateMarkers_idempotent (st : MarkerState) (locs : List Location)
    (hnd : (locs.map (fun l => l.timestamp)).Nodup) :
    (updateMarkers true (updateMarkers true st locs).state locs).created = [] ∧
    (updateMarkers true (updateMarkers true st locs).state locs).removed = [] ∧
    (updateMarkers true (updateMarkers true st locs).state locs).state =
      (updateMarkers true st locs).state := by
  have hmap1 := updateMarkers_markerMap_eq st locs hnd
  have hsecond := updateMarkers_second_run
    (updateMarkers true st locs).state.markerMap
    (updateMarkers true st locs).state.nextId locs hnd
    (by rw [hmap1, keys_buildSpec])
    (by rw [hmap1]; exact buildSpec_idem st.markerMap locs hnd st.nextId _)
  have heta : (⟨(updateMarkers true st locs).state.markerMap,
      (updateMarkers true st locs).state.nextId⟩ : MarkerState)
      = (updateMarkers true st locs).state := rfl
  rw [heta] at hsecond
  rw [hsecond]
  exact ⟨rfl, rfl, rfl⟩

/-- Witness for C2 at a concrete two-record sequence. -/
theorem updateMarkers_idempotent_witness :
    (([locCur, locSel].map (fun l => l.timestamp)).Nodup) ∧
    ((updateMarkers true (updateMarkers true emptyMarkerState
        [locCur, locSel]).state [locCur, locSel]).created = [] ∧
     (updateMarkers true (updateMarkers true emptyMarkerState
        [locCur, locSel]).state [locCur, locSel]).removed = [] ∧
     (updateMarkers true (updateMarkers true emptyMarkerState
        [locCur, locSel]).state [locCur, locSel]).state =
       (updateMarkers true emptyMarkerState [locCur, locSel]).state) :=
  ⟨by decide, updateMarkers_idempotent emptyMarkerState [locCur, locSel] (by decide)⟩

theorem isCurrent_eq_false_iff (loc : Location) :
    isCurrent loc = false ↔ loc.type ≠ LocType.current := by
  cases h : loc.type <;> simp [isCurrent, h]

theorem find?_isCurrent_append (pre rest : List Location)
    (h : ∀ x ∈ pre, isCurrent x = false) :
    (pre ++ rest).find? isCurrent = rest.find? isCurrent := by
  induction pre with
  | nil => rfl
  | cons x xs ih =>
    have hx := h x (List.mem_cons_self _ _)
    simp only [List.cons_append, List.find?, hx]
    exact ih (fun y hy => h y (List.mem_cons_of_mem _ hy))

/-- C3: after reconciliation, if the sequence contains a `current`
record then exactly one camera command is issued, targeting the
coordinates of the first such record in sequence order at zoom 14;
with no `current` record no camera command is issued. -/
theorem updateMarkers_cameraFollow (st : MarkerState) (pre post : List Location)
    (l0 : Location) :
    ((∀ x ∈ pre, x.type ≠ LocType.current) → l0.type = LocType.current →
      (updateMarkers true st (pre ++ l0 :: post)).flyTo
        = some (l0.coordinates, 14)) ∧
    (∀ locs : List Location, (∀ x ∈ locs, x.type ≠ LocType.current) →
      (updateMarkers true st locs).flyTo = none) := by
  constructor
  · intro hpre h0
    have hfind := find?_isCurrent_append pre (l0 :: post)
      (fun x hx => (isCurrent_eq_false_iff x).mpr (hpre x hx))
    have hl0 : isCurrent l0 = true := by simp [isCurrent, h0]
    simp [updateMarkers, cameraCommand, hfind, List.find?, hl0]
  · intro locs h
    have hfind : locs.find? isCurrent = none := by
      rw [List.find?_eq_none]
      intro x hx
      simp [(isCurrent_eq_false_iff x).mpr (h x hx)]
    simp [updateMarkers, cameraCommand, hfind]

/-- Witness for C3: a sequence whose second record is the first
`current` one, and a sequence with no `current` record. -/
theorem updateMarkers_cameraFollow_witness :
    (updateMarkers true emptyMarkerState [locSel, locCur]).flyTo
      = some (locCur.coordinates, 14) ∧
    (updateMarkers true emptyMarkerState [locSel, locSea]).flyTo = none :=
  ⟨(updateMarkers_cameraFollow emptyMarkerState [locSel] [] locCur).1
      (by decide) (by decide),
   (updateMarkers_cameraFollow emptyMarkerState [] [] locCur).2
      [locSel, locSea] (by decide)⟩

theorem updateMarkers_no_churn (st1 : MarkerState) (locs2 : List Location)
    (hfound : ∀ loc ∈ locs2,
      (lookupMarker st1.markerMap loc.timestamp).isSome = true)
    (hcover : ∀ p ∈ st1.markerMap, p.1 ∈ locs2.map (fun l => l.timestamp)) :
    (updateMarkers true st1 locs2).created = [] ∧
    (updateMarkers true st1 locs2).removed = [] := by
  have h1 := processAll_all_found st1.markerMap locs2 hfound ⟨[], st1.nextId, []⟩
  have h2 : removedIds st1.markerMap locs2 = [] := by
    apply removedIds_eq_nil
    intro p hp
    rw [hasTimestamp_eq_true_iff]
    exact hcover p hp
  constructor
  · simpa [updateMarkers] using h1.1
  · simpa [updateMarkers] using h2

/-- C7: reconciling a permutation of the sequence against the mapping
produced for the original sequence neither creates nor destroys any
marker handle. -/
theorem updateMarkers_reorder_stable (st : MarkerState) (locs locs2 : List Location)
    (hperm : locs.Perm locs2) :
    (updateMarkers true (updateMarkers true st locs).state locs2).created = [] ∧
    (updateMarkers true (updateMarkers true st locs).state locs2).removed = [] := by
  apply updateMarkers_no_churn
  · intro l hl
    rw [lookupMarker_isSome_iff, keys_updateMarkers]
    exact (hperm.map (fun l => l.timestamp)).mem_iff.mpr
      (List.mem_map_of_mem _ hl)
  · intro p hp
    have hk : p.1 ∈ keys (updateMarkers true st locs).state.markerMap :=
      List.mem_map_of_mem _ hp
    rw [keys_updateMarkers] at hk
    exact (hperm.map (fun l => l.timestamp)).mem_iff.mp hk

/-- Witness for C7 at a concrete transposition of two records. -/
theorem updateMarkers_reorder_stable_witness :
    (updateMarkers true (updateMarkers true emptyMarkerState
      [locCur, locSel]).state [locSel, locCur]).created = [] ∧
    (updateMarkers true (updateMarkers true emptyMarkerState
      [locCur, locSel]).state [locSel, locCur]).removed = [] :=
  updateMarkers_reorder_stable emptyMarkerState [locCur, locSel] [locSel, locCur]
    (by decide)

theorem length_filter_remove (locs : List Location) (ts : Nat)
    (hnd : (locs.map (fun l => l.timestamp)).Nodup)
    (hmem : ts ∈ locs.map (fun l => l.timestamp)) :
    (removeLocation locs ts).length + 1 = locs.length := by
  induction locs with
  | nil => simp at hmem
  | cons loc rest ih =>
    rw [List.map_cons, List.nodup_cons] at hnd
    obtain ⟨hhead, hnd2⟩ := hnd
    by_cases h : loc.timestamp = ts
    · have hrest : ∀ l ∈ rest, (l.timestamp != ts) = true := by
        intro l hl
        have hne : l.timestamp ≠ ts := by
          intro he
          exact hhead (h ▸ he ▸ List.mem_map_of_mem _ hl)
        simpa using hne
      have hfull : rest.filter (fun l => l.timestamp != ts) = rest :=
        List.filter_eq_self.mpr hrest
      simp [removeLocation, h, hfull]
    · have hmem2 : ts ∈ rest.map (fun l => l.timestamp) := by
        rw [List.map_cons, List.mem_cons] at hmem
        rcases hmem with he | hm
        · exact absurd he.symm h
        · exact hm
      have hkeep : (loc.timestamp != ts) = true := by simpa using h
      have hlen := ih hnd2 hmem2
      simp only [removeLocation] at hlen ⊢
      simp [List.filter_cons, hkeep]
      omega

/-- C8: for a sequence with unique identifiers, removing an absent
identifier is a no-op; removing a present identifier shrinks the
sequence by exactly one, and the next reconciliation drops that
identifier from the mapping and releases its marker handle. -/
theorem removeLocation_spec (locs : List Location) (ts : Nat) (st : MarkerState) :
    (ts ∉ locs.map (fun l => l.timestamp) → removeLocation locs ts = locs) ∧
    ((locs.map (fun l => l.timestamp)).Nodup →
      ts ∈ locs.map (fun l => l.timestamp) →
      (removeLocation locs ts).length + 1 = locs.length ∧
      lookupMarker (updateMarkers true (updateMarkers true st locs).state
        (removeLocation locs ts)).state.markerMap ts = none ∧
      ∃ m, lookupMarker (updateMarkers true st locs).state.markerMap ts = some m ∧
        m.id ∈ (updateMarkers true (updateMarkers true st locs).state
          (removeLocation locs ts)).removed) := by
  constructor
  · intro hnot
    apply List.filter_eq_self.mpr
    intro l hl
    have hne : l.timestamp ≠ ts := fun he => hnot (he ▸ List.mem_map_of_mem _ hl)
    simpa using hne
  · intro hnd hmem
    have hts : ts ∉ (removeLocation locs ts).map (fun l => l.timestamp) := by
      intro hmem2
      rcases List.mem_map.mp hmem2 with ⟨l, hl, he⟩
      have hfl := List.mem_filter.mp hl
      exact absurd he (by simpa using hfl.2)
    refine ⟨length_filter_remove locs ts hnd hmem, ?_, ?_⟩
    · rw [← Option.not_isSome_iff_eq_none, lookupMarker_isSome_iff,
        keys_updateMarkers]
      exact hts
    · have hsome : (lookupMarker (updateMarkers true st locs).state.markerMap
          ts).isSome = true := by
        rw [lookupMarker_isSome_iff, keys_updateMarkers]
        exact hmem
      obtain ⟨m, hm⟩ := Option.isSome_iff_exists.mp hsome
      refine ⟨m, hm, ?_⟩
      have hpair : (ts, m) ∈ (updateMarkers true st locs).state.markerMap :=
        lookupMarker_mem _ _ _ hm
      have hnots : ¬ hasTimestamp (removeLocation locs ts) ts = true := by
        rw [hasTimestamp_eq_true_iff]
        exact hts
      have hfil : (ts, m) ∈ (updateMarkers true st locs).state.markerMap.filter
          (fun p => !hasTimestamp (removeLocation locs ts) p.1) := by
        rw [List.mem_filter]
        exact ⟨hpair, by simp [Bool.eq_false_iff.mpr hnots]⟩
      have hid : m.id ∈ removedIds (updateMarkers true st locs).state.markerMap
          (removeLocation locs ts) := by
        unfold removedIds
        exact List.mem_map.mpr ⟨(ts, m), hfil, rfl⟩
      simpa [updateMarkers] using hid

/-- Witness for C8: removing an absent identifier (99) and a present
one (11) from a concrete two-record sequence. -/
theorem removeLocation_spec_witness :
    removeLocation [locCur, locSel] 99 = [locCur, locSel] ∧
    ((removeLocation [locCur, locSel] 11).length + 1 = [locCur, locSel].length ∧
     lookupMarker (updateMarkers true (updateMarkers true emptyMarkerState
       [locCur, locSel]).state
       (removeLocation [locCur, locSel] 11)).state.markerMap 11 = none ∧
     ∃ m, lookupMarker (updateMarkers true emptyMarkerState
         [locCur, locSel]).state.markerMap 11 = some m ∧
       m.id ∈ (updateMarkers true (updateMarkers true emptyMarkerState
         [locCur, locSel]).state (removeLocation [locCur, locSel] 11)).removed) :=
  ⟨(removeLocation_spec [locCur, locSel] 99 emptyMarkerState).1 (by decide),
   (removeLocation_spec [locCur, locSel] 11 emptyMarkerState).2
     (by decide) (by decide)⟩

/-! ### Claim theorems for the suggestion effect -/

/-- C4 counterexample: in `staleRun` the fetch for the old text "a"
(fetch 0) resolves after the keystroke that changed the text to "ab" and
after fetch 1's response was applied; its stale payload nevertheless
ends up displayed, so the displayed results do not reflect the lookup
for the most recent text. -/
theorem suggestions_stale_counterexample :
    staleRun.searchQuery = "ab" ∧ staleRun.suggestions = ["ResultForA"] ∧
    staleRun.fetchLog = [⟨0, "a"⟩, ⟨1, "ab"⟩] := by decide

/-- C4 amended: a later keystroke only clears the pending debounce
timer (so a lookup that was never issued has no effect), but once a
fetch has been issued its response is applied to the displayed list
whenever it resolves, even if the search text has changed since — stale
responses are not abandoned. -/
theorem suggestions_stale_amended (ctx : SuggestCtx) (st : SuggestState)
    (q : String) (fid : Nat) (feats : List String) :
    ((suggestStep ctx st (.change q)).timer = none ∨
      (suggestStep ctx st (.change q)).timer = some q) ∧
    ((st.inflight.find? (fun f => f.id == fid)).isSome = true →
      (suggestStep ctx st (.resolve fid feats)).suggestions = feats) := by
  constructor
  · cases h : shouldFetch ctx q with
    | false =>
      left
      simp [suggestStep, h]
    | true =>
      right
      simp [suggestStep, h]
  · intro h
    obtain ⟨f, hf⟩ := Option.isSome_iff_exists.mp h
    simp [suggestStep, hf]

/-- Witness for C4's amended statement: a keystroke while a fetch for
the old text is in flight, and that stale fetch resolving afterwards. -/
theorem suggestions_stale_amended_witness :
    ((suggestStep ctx0 stInflight (.change "abc")).timer = none ∨
     (suggestStep ctx0 stInflight (.change "abc")).timer = some "abc") ∧
    (suggestStep ctx0 stInflight (.resolve 0 ["StaleResult"])).suggestions
      = ["StaleResult"] :=
  ⟨(suggestions_stale_amended ctx0 stInflight "abc" 0 ["StaleResult"]).1,
   (suggestions_stale_amended ctx0 stInflight "abc" 0 ["StaleResult"]).2
     (by decide)⟩

/-- C6: three text changes each landing within 300 ms of the previous
one result in exactly one issued suggestion fetch, for the final text. -/
theorem debounce_burst (ctx : SuggestCtx) (t1 t2 t3 : Nat) (q1 q2 q3 : String)
    (h12 : t2 < t1 + 300) (h23 : t3 < t2 + 300)
    (h3 : shouldFetch ctx q3 = true) :
    debouncedFetches ctx [(t1, q1), (t2, q2), (t3, q3)] = [q3] := by
  have hn1 : ¬ (t1 + 300 ≤ t2) := by omega
  have hn2 : ¬ (t2 + 300 ≤ t3) := by omega
  simp [debouncedFetches, firesBefore, hn1, hn2, h3]

/-- Witness for C6 at a concrete burst of three keystrokes. -/
theorem debounce_burst_witness :
    ((100 : Nat) < 0 + 300) ∧ ((200 : Nat) < 100 + 300) ∧
    shouldFetch ctx0 "abc" = true ∧
    debouncedFetches ctx0 [(0, "a"), (100, "ab"), (200, "abc")] = ["abc"] :=
  ⟨by decide, by decide, by decide,
   debounce_burst ctx0 0 100 200 "a" "ab" "abc" (by decide) (by decide)
     (by decide)⟩

/-- C10: with no token set, or an empty or whitespace-only search text,
the effect clears the suggestion list, arms no timer, and such a change
contributes no suggestion fetch at all. -/
theorem emptyQuery_clears (ctx : SuggestCtx) (q : String) (st : SuggestState)
    (h : ctx.mapboxToken = "" ∨ ctx.isTokenSet = false ∨ isBlank q = true) :
    (suggestStep ctx st (.change q)).suggestions = [] ∧
    (suggestStep ctx st (.change q)).timer = none ∧
    ∀ (t : Nat) (rest : List (Nat × String)),
      debouncedFetches ctx ((t, q) :: rest) = debouncedFetches ctx rest := by
  have hsf : shouldFetch ctx q = false := by
    rcases h with h | h | h <;> simp [shouldFetch, h]
  refine ⟨?_, ?_, ?_⟩
  · simp [suggestStep, hsf]
  · simp [suggestStep, hsf]
  · intro t rest
    simp [debouncedFetches, hsf]

/-- Witness for C10 at a whitespace-only query. -/
theorem emptyQuery_clears_witness :
    (ctx0.mapboxToken = "" ∨ ctx0.isTokenSet = false ∨ isBlank "   " = true) ∧
    ((suggestStep ctx0 suggestInit (.change "   ")).suggestions = [] ∧
     (suggestStep ctx0 suggestInit (.change "   ")).timer = none ∧
     debouncedFetches ctx0 [(5, "   "), (400, "x")]
       = debouncedFetches ctx0 [(400, "x")]) :=
  ⟨Or.inr (Or.inr (by decide)),
   (emptyQuery_clears ctx0 "   " suggestInit (Or.inr (Or.inr (by decide)))).1,
   (emptyQuery_clears ctx0 "   " suggestInit (Or.inr (Or.inr (by decide)))).2.1,
   (emptyQuery_clears ctx0 "   " suggestInit (Or.inr (Or.inr (by decide)))).2.2
     5 [(400, "x")]⟩

/-! ### Claim theorems for the click handler -/

/-- C5 counterexample: when the reverse-geocode HTTP request fails, the
handler throws before `setLocations`, so no record at all is appended
(the claim expected a record with the placeholder address); only the
warning toast fires. -/
theorem handleMapClick_failure_counterexample :
    (handleMapClick [] (1, 2) 7 .httpError).locations = [] ∧
    (handleMapClick [] (1, 2) 7 .httpError).warned = true := by decide

/-- C5 amended: on a successful response whose first feature has a
non-empty place name P, exactly one `selected` record with the clicked
coordinates and address P is appended; on HTTP failure no record is
appended and the warning toast fires; on a successful response with no
feature the appended record carries the placeholder address. -/
theorem handleMapClick_amended (prev : List Location) (clicked : Coord)
    (now : Nat) (pname : String) (rest : List String) :
    (pname ≠ "" →
      (handleMapClick prev clicked now (.ok (pname :: rest))).locations
        = prev ++ [⟨clicked, pname, .selected, now⟩] ∧
      (handleMapClick prev clicked now (.ok (pname :: rest))).toastedSuccess
        = true) ∧
    ((handleMapClick prev clicked now .httpError).locations = prev ∧
      (handleMapClick prev clicked now .httpError).warned = true) ∧
    (handleMapClick prev clicked now (.ok [])).locations
      = prev ++ [⟨clicked, "Address not available", .selected, now⟩] := by
  refine ⟨?_, ⟨rfl, rfl⟩, ?_⟩
  · intro hp
    constructor
    · simp [handleMapClick, geoAddress, hp]
    · rfl
  · simp [handleMapClick, geoAddress]

/-- Witness for C5's amended statement at a concrete successful click. -/
theorem handleMapClick_amended_witness :
    (("123 Main St" : String) ≠ "") ∧
    ((handleMapClick [] (1, 2) 7 (.ok ["123 Main St"])).locations
        = [] ++ [⟨(1, 2), "123 Main St", .selected, 7⟩] ∧
      (handleMapClick [] (1, 2) 7 (.ok ["123 Main St"])).toastedSuccess = true) :=
  ⟨by decide, (handleMapClick_amended [] (1, 2) 7 "123 Main St" []).1 (by decide)⟩

/-! ### Claim theorems for the initialization effect -/

/-- C9 counterexample: after the engine instance 0 is created at mount,
a change of `initialCoords` (a dependency of the effect) makes React run
the registered cleanup — destroying instance 0 — and then the effect
body again, creating a fresh instance 1; so the engine is destroyed and
re-created by an input change, contrary to the claim. -/
theorem initEffect_counterexample :
    initRun.destroyed = [0] ∧ initRun.mapRef = some ⟨1, (1, 2), 14⟩ := by decide

/-- C9 amended: an absent credential yields a diagnostic and no engine
creation; unchanged dependency values do not rerun the effect; but a
change of the credential or the initial center while an instance exists
destroys that instance (via the effect cleanup) and creates a fresh
one. -/
theorem initEffect_amended (d : MapDeps) (st : InitState) (inst : EngineInst)
    (ca : Bool) (rest : List MapDeps) :
    (d.apiKey = "" →
      (initEffectBody d ca st).mapRef = st.mapRef ∧
      (initEffectBody d ca st).keyMissingDiags = st.keyMissingDiags + 1) ∧
    (initLifecycle ca (d :: rest) (some d) st = initLifecycle ca rest (some d) st) ∧
    (st.hasCleanup = true → st.mapRef = some inst → d.apiKey ≠ "" →
      inst.id ∈ (initEffectRerun d true st).destroyed ∧
      (initEffectRerun d true st).mapRef = some
        ⟨st.nextInst, d.initialCoords.getD defaultCenter,
          if d.initialCoords.isSome then 14 else defaultZoom⟩) := by
  refine ⟨?_, ?_, ?_⟩
  · intro h
    constructor <;> simp [initEffectBody, h]
  · simp [initLifecycle]
  · intro hc hm hk
    constructor
    · simp [initEffectRerun, initEffectCleanup, hc, hm, initEffectBody, hk]
    · simp [initEffectRerun, initEffectCleanup, hc, hm, initEffectBody, hk]

/-- Witness for C9's amended statement: a missing-key mount, and a
dependency change while instance 0 exists. -/
theorem initEffect_amended_witness :
    ((initEffectBody ⟨"", none⟩ true initState0).mapRef = initState0.mapRef ∧
     (initEffectBody ⟨"", none⟩ true initState0).keyMissingDiags
       = initState0.keyMissingDiags + 1) ∧
    ((⟨0, (1, 1), 14⟩ : EngineInst).id
        ∈ (initEffectRerun mapDeps2 true initStWithInst).destroyed ∧
     (initEffectRerun mapDeps2 true initStWithInst).mapRef = some
       ⟨initStWithInst.nextInst, mapDeps2.initialCoords.getD defaultCenter,
         if mapDeps2.initialCoords.isSome then 14 else defaultZoom⟩) :=
  ⟨(initEffect_amended ⟨"", none⟩ initState0 ⟨0, (1, 1), 14⟩ true []).1 rfl,
   (initEffect_amended mapDeps2 initStWithInst ⟨0, (1, 1), 14⟩ true []).2.2
     rfl rfl (by decide)⟩

end AddressToMapView
